import Mathlib

/-!
Verification of the metadata-visualization service
(`src/services/vizualisation/app.py`) against its natural-language
specification.  The Python code is shallowly embedded: dictionaries become
association lists, floats become rationals, stateful dictionary mutation
becomes explicit heap passing (a list of property bags indexed by address),
and fallible code returns `Option`/`Except`.

The file has two parts: all definitions first, then all lemmas and claim
theorems.
-/

deriving instance DecidableEq for Except

namespace VizApp

/-! ## Association lists: the model of Python dictionaries

`assocLookup` is `d[k]`-style lookup (first matching key); `assocUpdate` is
`d[k] = v`: it overwrites the first occurrence of the key in place, or appends
the key at the end when absent — matching the insertion-order semantics of
Python dicts. -/

def assocLookup {α : Type} (k : String) : List (String × α) → Option α
  | [] => none
  | (k', v) :: rest => if k' = k then some v else assocLookup k rest

def assocUpdate {α : Type} (k : String) (v : α) : List (String × α) → List (String × α)
  | [] => [(k, v)]
  | (k', v') :: rest =>
      if k' = k then (k, v) :: rest else (k', v') :: assocUpdate k v rest

/-! ## Metadata values

A Python value stored in a per-file property bag: a raw string from the
store, a float (modelled as `ℚ`), `None`, a parsed `datetime`, or a decoded
tag list. -/

structure DT where
  year : ℕ
  month : ℕ
  day : ℕ
  hour : ℕ
  minute : ℕ
  second : ℕ
deriving DecidableEq, Repr

inductive MVal where
  | vstr : String → MVal
  | vnum : ℚ → MVal
  | vnone : MVal
  | vdate : DT → MVal
  | vtags : List String → MVal
deriving DecidableEq, Repr

/-- A per-file property bag (a Python dict from property name to value). -/
abbrev Bag := List (String × MVal)

/-- Strictly-later-than ordering on calendar timestamps (lexicographic on
year, month, day, hour, minute, second); used to state what "dated after
the current date" means. -/
def dtLater (a b : DT) : Bool :=
  if a.year ≠ b.year then b.year < a.year
  else if a.month ≠ b.month then b.month < a.month
  else if a.day ≠ b.day then b.day < a.day
  else if a.hour ≠ b.hour then b.hour < a.hour
  else if a.minute ≠ b.minute then b.minute < a.minute
  else b.second < a.second

/-! ## `dms_to_decimal` (app.py lines 90–103) -/

def dms_to_decimal (degrees minutes seconds : ℚ) : ℚ :=
  let decimal_degrees := |degrees| + minutes / 60 + seconds / 3600
  if degrees < 0 then -decimal_degrees else decimal_degrees

/-! ## Graph-type selector dispatch

The selector-dispatch skeletons of the aggregation handlers.  Each embeds
only the `if graph_type == ...` chain of its handler; the charts themselves
are opaque outcomes. -/

inductive ChartOut where
  | bar | pie | curve | barPie | barPieCurve
deriving DecidableEq, Repr

/-- Dispatch structure of `graph_images_size_dynamic` (app.py lines 470–481):
`bar`, `pie`, `all`, otherwise `raise ValueError('Invalid graph type')`. -/
def graph_images_size_dynamic_dispatch (graph_type : String) : Except String ChartOut :=
  if graph_type = "bar" then .ok .bar
  else if graph_type = "pie" then .ok .pie
  else if graph_type = "all" then .ok .barPie
  else .error "Invalid graph type"

/-- Dispatch structure of `graph_images_countries` (app.py lines 705–714):
`bar`, `pie`, and a bare `else` that returns both charts — there is no
error branch. -/
def graph_images_countries_dispatch (graph : String) : Except String ChartOut :=
  if graph = "bar" then .ok .bar
  else if graph = "pie" then .ok .pie
  else .ok .barPie

/-! ## The `/metadata` cache route (app.py lines 227–254)

`get_metadata` checks for the file `'mon_dataframe.csv'`; on a miss it
queries the store, cleans, and writes `metadata_path + '/metadata.csv'`
(with `metadata_path = './metadata'`).  The filesystem is modelled as the
list of existing file paths; the result records which source served the
request. -/

structure FsState where
  files : List String
deriving DecidableEq, Repr

inductive MetaSrc where
  | cache | store
deriving DecidableEq, Repr

def metadata_path : String := "./metadata"

def get_metadata (st : FsState) : MetaSrc × FsState :=
  if "mon_dataframe.csv" ∈ st.files then (.cache, st)
  else (.store, ⟨(metadata_path ++ "/metadata.csv") :: st.files⟩)

/-! ## Make-string cleaning (app.py lines 176–180)

`''.join(filter(str.isalpha, make))` followed by the five
`.replace(pat, '')` calls.  `removeAll` models Python `str.replace(pat, '')`
for a non-empty pattern: scan left to right, removing non-overlapping
occurrences and resuming after each removed occurrence.  It is written with
explicit fuel so that it reduces in the kernel; `l.length + 1` steps always
suffice since every step consumes at least one character. -/

def isPre : List Char → List Char → Bool
  | [], _ => true
  | _ :: _, [] => false
  | p :: ps, c :: cs => p = c && isPre ps cs

def removeAllGo (p : List Char) : ℕ → List Char → List Char
  | 0, l => l
  | _ + 1, [] => []
  | fuel + 1, c :: rest =>
      if p ≠ [] ∧ isPre p (c :: rest) then
        removeAllGo p fuel ((c :: rest).drop p.length)
      else
        c :: removeAllGo p fuel rest

def removeAll (p l : List Char) : List Char := removeAllGo p (l.length + 1) l

/-- Whether `p` occurs as a contiguous substring of `l`. -/
def hasSub (p : List Char) : List Char → Bool
  | [] => isPre p []
  | c :: rest => isPre p (c :: rest) || hasSub p rest

def filterAlpha (l : List Char) : List Char := l.filter Char.isAlpha

def cleanMakeStr (s : String) : String :=
  ⟨removeAll "IMAGING".toList
    (removeAll "LTD".toList
      (removeAll "COMPANY".toList
        (removeAll "CORP".toList
          (removeAll "CORPORATION".toList (filterAlpha s.toList)))))⟩

/-- The five corporate-suffix patterns, in the order the code strips them. -/
def makePatterns : List String :=
  ["CORPORATION", "CORP", "COMPANY", "LTD", "IMAGING"]

/-! ## Metadata loader (app.py lines 74–87)

Each fetched row is `(filename, block)` where `block` concatenates
`key⟨tab⟩value` lines.  The loader assigns `result[filename] = {}`, then adds
the parsed properties one by one; a malformed line (`prop.split('\t')` not
yielding exactly two fields) raises inside the per-row `try`, which is
caught and logged, leaving the partially filled entry in place and moving
on to the next row. -/

/-- Python `s.split(sep)` for a single-character separator. -/
def pySplit (sep : Char) : List Char → List (List Char)
  | [] => [[]]
  | c :: rest =>
      if c = sep then [] :: pySplit sep rest
      else
        match pySplit sep rest with
        | [] => [[c]]
        | g :: gs => (c :: g) :: gs

def splitOnChar (sep : Char) (s : String) : List String :=
  (pySplit sep s.toList).map fun l => ⟨l⟩

/-- The inner property loop of the loader: fold the `key⟨tab⟩value` lines
into a dict, stopping at the first malformed line; the flag records whether
the whole block parsed cleanly. -/
def buildProps : List String → List (String × String) → List (String × String) × Bool
  | [], acc => (acc, true)
  | p :: rest, acc =>
      if p = "" then buildProps rest acc
      else
        match splitOnChar '\t' p with
        | [k, v] => buildProps rest (assocUpdate k v acc)
        | _ => (acc, false)

/-- The property bag obtained from one row's concatenated block (the
properties accumulated up to the first malformed line, if any). -/
def rowProps (block : String) : List (String × String) × Bool :=
  buildProps (splitOnChar '\n' block) []

def get_metadata_from_mariadb_db (rows : List (String × String)) :
    List (String × List (String × String)) :=
  rows.foldl (fun result row => assocUpdate row.1 (rowProps row.2).1 result) []

/-! ## Capture-timestamp cleaning (app.py lines 189–206)

The code preprocesses the stored string with
`date.replace('T', ' ').replace('-', ':').split('+')[0]`, truncates to 19
characters, and parses with `datetime.strptime(tmp, '%Y:%m:%d %H:%M:%S')`.
The parser below models CPython's `_strptime`: each directive is the
regular-expression alternation CPython compiles for it (`%Y` = four digits,
`%m` = `1[0-2]|0[1-9]|[1-9]`, `%d` = `3[01]|[12]\d|0[1-9]|[1-9]`,
`%H` = `2[0-3]|[0-1]\d|\d`, `%M` = `[0-5]\d|\d`, `%S` = `6[0-1]|[0-5]\d|\d`,
literal whitespace = `\s+`), attempted in order with backtracking, and the
whole string must be consumed; `datetime`'s constructor then validates the
calendar fields.  On success the code keeps the parsed value unless its
year exceeds the current year, in which case (or on a parse `ValueError`)
the field is set to `None`. -/

def digitVal (c : Char) : ℕ := c.toNat - 48

def preprocessDate (l : List Char) : List Char :=
  ((((l.map fun c => if c = 'T' then ' ' else c).map
      fun c => if c = '-' then ':' else c).takeWhile fun c => c ≠ '+').take 19)

def altY : List Char → List (ℕ × List Char)
  | a :: b :: c :: d :: rest =>
      if a.isDigit && b.isDigit && c.isDigit && d.isDigit then
        [(((digitVal a * 10 + digitVal b) * 10 + digitVal c) * 10 + digitVal d, rest)]
      else []
  | _ => []

def twoDig (a b : Char) : ℕ := digitVal a * 10 + digitVal b

def altM (l : List Char) : List (ℕ × List Char) :=
  (match l with
   | a :: b :: rest =>
       (if a = '1' && ('0' ≤ b && b ≤ '2') then [(twoDig a b, rest)] else []) ++
       (if a = '0' && ('1' ≤ b && b ≤ '9') then [(twoDig a b, rest)] else [])
   | _ => []) ++
  (match l with
   | a :: rest => if '1' ≤ a && a ≤ '9' then [(digitVal a, rest)] else []
   | _ => [])

def altD (l : List Char) : List (ℕ × List Char) :=
  (match l with
   | a :: b :: rest =>
       (if a = '3' && ('0' ≤ b && b ≤ '1') then [(twoDig a b, rest)] else []) ++
       (if ('1' ≤ a && a ≤ '2') && b.isDigit then [(twoDig a b, rest)] else []) ++
       (if a = '0' && ('1' ≤ b && b ≤ '9') then [(twoDig a b, rest)] else [])
   | _ => []) ++
  (match l with
   | a :: rest => if '1' ≤ a && a ≤ '9' then [(digitVal a, rest)] else []
   | _ => [])

def altH (l : List Char) : List (ℕ × List Char) :=
  (match l with
   | a :: b :: rest =>
       (if a = '2' && ('0' ≤ b && b ≤ '3') then [(twoDig a b, rest)] else []) ++
       (if ('0' ≤ a && a ≤ '1') && b.isDigit then [(twoDig a b, rest)] else [])
   | _ => []) ++
  (match l with
   | a :: rest => if a.isDigit then [(digitVal a, rest)] else []
   | _ => [])

def altMin (l : List Char) : List (ℕ × List Char) :=
  (match l with
   | a :: b :: rest =>
       if ('0' ≤ a && a ≤ '5') && b.isDigit then [(twoDig a b, rest)] else []
   | _ => []) ++
  (match l with
   | a :: rest => if a.isDigit then [(digitVal a, rest)] else []
   | _ => [])

def altSec (l : List Char) : List (ℕ × List Char) :=
  (match l with
   | a :: b :: rest =>
       (if a = '6' && ('0' ≤ b && b ≤ '1') then [(twoDig a b, rest)] else []) ++
       (if ('0' ≤ a && a ≤ '5') && b.isDigit then [(twoDig a b, rest)] else [])
   | _ => []) ++
  (match l with
   | a :: rest => if a.isDigit then [(digitVal a, rest)] else []
   | _ => [])

def firstHit {α β : Type} : List α → (α → Option β) → Option β
  | [], _ => none
  | a :: as, f =>
      match f a with
      | some b => some b
      | none => firstHit as f

def parseLit (c : Char) : List Char → Option (List Char)
  | c' :: rest => if c' = c then some rest else none
  | [] => none

def parseWS : List Char → Option (List Char)
  | c :: rest => if c.isWhitespace then some (rest.dropWhile Char.isWhitespace) else none
  | [] => none

def parseDTCore (l : List Char) : Option DT :=
  firstHit (altY l) fun yr =>
    (parseLit ':' yr.2).bind fun r1 =>
      firstHit (altM r1) fun mo =>
        (parseLit ':' mo.2).bind fun r2 =>
          firstHit (altD r2) fun dy =>
            (parseWS dy.2).bind fun r3 =>
              firstHit (altH r3) fun hr =>
                (parseLit ':' hr.2).bind fun r4 =>
                  firstHit (altMin r4) fun mi =>
                    (parseLit ':' mi.2).bind fun r5 =>
                      firstHit (altSec r5) fun se =>
                        if se.2 = [] then
                          some ⟨yr.1, mo.1, dy.1, hr.1, mi.1, se.1⟩
                        else none

def isLeap (y : ℕ) : Bool := (y % 4 = 0 && y % 100 ≠ 0) || y % 400 = 0

def daysInMonth (y m : ℕ) : ℕ :=
  if m = 2 then (if isLeap y then 29 else 28)
  else if m = 4 ∨ m = 6 ∨ m = 9 ∨ m = 11 then 30
  else 31

/-- The range checks `datetime`'s constructor adds beyond the directive
regexes: year in `MINYEAR..MAXYEAR`, day valid for the month, seconds below
60 (the regex alone admits 60 and 61). -/
def validDT (dt : DT) : Bool :=
  1 ≤ dt.year && dt.year ≤ 9999 && 1 ≤ dt.day &&
    dt.day ≤ daysInMonth dt.year dt.month && dt.second ≤ 59

/-- Preprocessing, `strptime`, and `datetime` validation combined: the model
of a successful parse of a stored capture-timestamp string. -/
def parseDateTime (s : String) : Option DT :=
  match parseDTCore (preprocessDate s.toList) with
  | some dt => if validDT dt then some dt else none
  | none => none

/-- One file's `DateTimeOriginal` cleaning (the body of the date loop):
missing key or stored `None` is left alone; a string is parsed, and the
parsed value is kept unless its year exceeds the current year, in which
case — as on a parse failure — the field is set to `None`.  A non-string,
non-`None` value raises `AttributeError` (no `.replace`), which the outer
`try` turns into aborting the date loop, modelled as `none`. -/
def bagDateStep (now : DT) (bag : Bag) : Option Bag :=
  match assocLookup "DateTimeOriginal" bag with
  | none => some bag
  | some .vnone => some bag
  | some (.vstr s) =>
      match parseDateTime s with
      | none => some (assocUpdate "DateTimeOriginal" .vnone bag)
      | some dt =>
          some (assocUpdate "DateTimeOriginal"
            (if now.year < dt.year then .vnone else .vdate dt) bag)
  | some _ => none

/-! ## Python `float(...)` on plain decimal strings

Model of `float(str)` for the decimal literals the metadata store holds
(optional sign, digits, optional fractional part); a string outside this
shape fails (`ValueError`). -/

def digitsToNat (l : List Char) : ℕ := l.foldl (fun n c => n * 10 + digitVal c) 0

def parseFloat (s : String) : Option ℚ :=
  let sgl : ℚ × List Char :=
    match s.toList with
    | '+' :: r => (1, r)
    | '-' :: r => (-1, r)
    | l => (1, l)
  let ip := sgl.2.takeWhile Char.isDigit
  let r1 := sgl.2.dropWhile Char.isDigit
  match r1 with
  | [] => if ip.isEmpty then none else some (sgl.1 * (digitsToNat ip : ℚ))
  | '.' :: r2 =>
      let fp := r2.takeWhile Char.isDigit
      let r3 := r2.dropWhile Char.isDigit
      if r3.isEmpty && (!ip.isEmpty || !fp.isEmpty) then
        some (sgl.1 * ((digitsToNat ip : ℚ) + (digitsToNat fp : ℚ) / (10 : ℚ) ^ fp.length))
      else none
  | _ => none

/-! ## Tags cleaning (app.py lines 214–219)

`eval` applied to the stored tags string.  Modelled for the payloads the
store actually holds: the literal `"None"`, or a Python list literal of
quoted strings; anything else raises, and the raise propagates out of
`clean_metadata` (the tags loop has no `try`). -/

def parseTagItems : ℕ → List Char → Option (List String)
  | 0, _ => none
  | fuel + 1, l =>
      match l.dropWhile (fun c => c = ' ') with
      | ']' :: rest => if (rest.dropWhile fun c => c = ' ').isEmpty then some [] else none
      | q :: rest =>
          if q = Char.ofNat 39 ∨ q = '"' then
            let content := rest.takeWhile fun c => c ≠ q
            match rest.dropWhile (fun c => c ≠ q) with
            | _ :: rest2 =>
                match rest2.dropWhile (fun c => c = ' ') with
                | ',' :: rest3 =>
                    (parseTagItems fuel rest3).map fun items => (⟨content⟩ : String) :: items
                | ']' :: rest3 =>
                    if (rest3.dropWhile fun c => c = ' ').isEmpty then some [⟨content⟩]
                    else none
                | _ => none
            | [] => none
          else none
      | [] => none

def pyEvalTags (s : String) : Except String MVal :=
  if s = "None" then .ok .vnone
  else
    match s.toList.dropWhile (fun c => c = ' ') with
    | '[' :: rest =>
        (match parseTagItems (rest.length + 1) rest with
         | some items => .ok (.vtags items)
         | none => .error "eval: unsupported tags payload")
    | _ => .error "eval: unsupported tags payload"

/-! ## Per-bag cleaning steps of `clean_metadata` (app.py lines 163–224)

Each loop of `clean_metadata` becomes a per-bag step.  The Make and date
loops sit inside a `try` that swallows any exception and thereby aborts the
rest of that loop (`Option`, `none` = abort); the tags loop and
`clean_gps_infos` have no handler, so their exceptions propagate
(`Except`). -/

def bagMakeStep (bag : Bag) : Option Bag :=
  match assocLookup "Make" bag with
  | none => some bag
  | some (.vstr s) => some (assocUpdate "Make" (.vstr (cleanMakeStr s)) bag)
  | some _ => none

def bagTagsStep (bag : Bag) : Except String Bag :=
  match assocLookup "tags" bag with
  | none => .ok bag
  | some .vnone => .ok (assocUpdate "tags" .vnone bag)
  | some (.vstr s) =>
      (match pyEvalTags s with
       | .ok v => .ok (assocUpdate "tags" v bag)
       | .error e => .error e)
  | some _ => .error "TypeError: eval arg must be a string"

/-! ## GPS cleaning (app.py lines 106–160)

`clean_gps_infos` guards only on the presence of `'Latitude'`; every other
GPS key is accessed unconditionally (a missing one raises `KeyError`), with
Python's `or` short-circuiting modelled explicitly.  Sentinel `'0.000000'`
in all four tested fields means "no GPS data": latitude, longitude and
altitude are set to `None`.  Otherwise the decimal strings are converted
with `float` — or, when the latitude string has no decimal point and DMS
data is present, recomputed from the six DMS fields via `dms_to_decimal`. -/

def getKey (bag : Bag) (k : String) : Except String MVal :=
  match assocLookup k bag with
  | some v => .ok v
  | none => .error ("KeyError: " ++ k)

/-- Python `x != '0.000000'`: string comparison when `x` is a string,
`True` for any value of a different type. -/
def mvalNeqStr (v : MVal) (s : String) : Bool :=
  match v with
  | .vstr t => decide (t ≠ s)
  | _ => true

/-- Python `'.' not in x`: membership test on a string, `TypeError`
otherwise. -/
def mvalNoDot (v : MVal) : Except String Bool :=
  match v with
  | .vstr t => .ok (!(t.toList.contains '.'))
  | _ => .error "TypeError: argument is not iterable"

def pyFloat (v : MVal) : Except String ℚ :=
  match v with
  | .vstr t =>
      (match parseFloat t with
       | some q => .ok q
       | none => .error "ValueError: could not convert string to float")
  | .vnum q => .ok q
  | _ => .error "TypeError: float() argument"

def getFloat (bag : Bag) (k : String) : Except String ℚ :=
  match getKey bag k with
  | .ok v => pyFloat v
  | .error e => .error e

/-- `has_dms_values` (line 119) with Python's short-circuiting `or`. -/
def gpsHasDms (bag : Bag) : Except String Bool :=
  match getKey bag "LatitudeDegrees" with
  | .error e => .error e
  | .ok latDeg =>
      if mvalNeqStr latDeg "0.000000" then .ok true
      else
        (match getKey bag "LongitudeDegrees" with
         | .error e => .error e
         | .ok lonDeg => .ok (mvalNeqStr lonDeg "0.000000"))

/-- `has_decimal_values` (line 120) with Python's short-circuiting `or`. -/
def gpsHasDec (bag : Bag) (latv : MVal) : Except String Bool :=
  if mvalNeqStr latv "0.000000" then .ok true
  else
    (match getKey bag "Longitude" with
     | .error e => .error e
     | .ok lonv => .ok (mvalNeqStr lonv "0.000000"))

def bagGpsStep (bag : Bag) : Except String Bag :=
  match assocLookup "Latitude" bag with
  | none => .ok bag
  | some latv =>
      match gpsHasDms bag with
      | .error e => .error e
      | .ok hasDms =>
          match gpsHasDec bag latv with
          | .error e => .error e
          | .ok hasDec =>
              if hasDms || hasDec then
                match mvalNoDot latv with
                | .error e => .error e
                | .ok noDot =>
                    if noDot && hasDms then
                      match getFloat bag "LatitudeDegrees" with
                      | .error e => .error e
                      | .ok d1 =>
                          match getFloat bag "LatitudeMinutes" with
                          | .error e => .error e
                          | .ok m1 =>
                              match getFloat bag "LatitudeSeconds" with
                              | .error e => .error e
                              | .ok s1 =>
                                  match getFloat bag "LongitudeDegrees" with
                                  | .error e => .error e
                                  | .ok d2 =>
                                      match getFloat bag "LongitudeMinutes" with
                                      | .error e => .error e
                                      | .ok m2 =>
                                          match getFloat bag "LongitudeSeconds" with
                                          | .error e => .error e
                                          | .ok s2 =>
                                              .ok (assocUpdate "Longitude"
                                                (.vnum (dms_to_decimal d2 m2 s2))
                                                (assocUpdate "Latitude"
                                                  (.vnum (dms_to_decimal d1 m1 s1)) bag))
                    else
                      match getFloat bag "Latitude" with
                      | .error e => .error e
                      | .ok lat =>
                          match getFloat bag "Longitude" with
                          | .error e => .error e
                          | .ok lon =>
                              .ok (assocUpdate "Longitude" (.vnum lon)
                                (assocUpdate "Latitude" (.vnum lat) bag))
              else
                .ok (assocUpdate "Altitude" .vnone
                  (assocUpdate "Longitude" .vnone
                    (assocUpdate "Latitude" .vnone bag)))

/-! ## The mutable mapping: heap of bags, shallow-copied top map

`clean_metadata` does `cln_meta = metadata_to_clean.copy()` — a shallow
copy: the new top-level dict holds the same per-file bag objects.  The heap
is the list of bag objects, addressed by index; the top map sends filenames
to addresses.  Each cleaning loop walks the top map and overwrites the bag
at the entry's address, so the caller's own references see the updates. -/

abbrev Heap := List Bag

abbrev TopMap := List (String × ℕ)

/-- A loop wrapped in a catch-all `try`: process entries in order, writing
each cleaned bag back in place; a raising entry stops the loop, keeping all
updates made so far. -/
def phaseOpt (step : Bag → Option Bag) : TopMap → Heap → Heap
  | [], h => h
  | e :: rest, h =>
      match step (h.getD e.2 []) with
      | some b => phaseOpt step rest (h.set e.2 b)
      | none => h

/-- A loop with no handler: process entries in order, writing each cleaned
bag back in place; a raising entry propagates the exception. -/
def phaseExc (step : Bag → Except String Bag) : TopMap → Heap → Except String Heap
  | [], h => .ok h
  | e :: rest, h =>
      match step (h.getD e.2 []) with
      | .ok b => phaseExc step rest (h.set e.2 b)
      | .error msg => .error msg

def clean_gps_infos : TopMap → Heap → Except String Heap := phaseExc bagGpsStep

/-- `clean_metadata` (app.py lines 163–224): Make loop, date loop, tags
loop, then `clean_gps_infos`, all over the shallow copy of the top-level
mapping — the returned top map is the same address map, and the bags are
updated in the shared heap. -/
def clean_metadata (now : DT) (top : TopMap) (h : Heap) : Except String (TopMap × Heap) :=
  let h1 := phaseOpt bagMakeStep top h
  let h2 := phaseOpt (bagDateStep now) top h1
  match phaseExc bagTagsStep top h2 with
  | .error e => .error e
  | .ok h3 =>
      match clean_gps_infos top h3 with
      | .error e => .error e
      | .ok h4 => .ok (top, h4)

def excToOpt {α : Type} : Except String α → Option α
  | .ok a => some a
  | .error _ => none

/-- The four per-bag steps of `clean_metadata` composed on one bag. -/
def cleanBagFull (now : DT) (bag : Bag) : Option Bag :=
  (bagMakeStep bag).bind fun b1 =>
    (bagDateStep now b1).bind fun b2 =>
      (excToOpt (bagTagsStep b2)).bind fun b3 =>
        excToOpt (bagGpsStep b3)

/-- A sample raw per-file record, as the loader would deliver it: every
value still a string, with `Make` carrying a corporate suffix and the GPS
fields all holding the `'0.000000'` sentinel. -/
def sampleRawBag : Bag :=
  [("Make", .vstr "NIKON CORPORATION"),
   ("Latitude", .vstr "0.000000"), ("Longitude", .vstr "0.000000"),
   ("LatitudeDegrees", .vstr "0.000000"), ("LatitudeMinutes", .vstr "0.000000"),
   ("LatitudeSeconds", .vstr "0.000000"), ("LongitudeDegrees", .vstr "0.000000"),
   ("LongitudeMinutes", .vstr "0.000000"), ("LongitudeSeconds", .vstr "0.000000")]

/-- The eight GPS keys read by `clean_gps_infos` once `'Latitude'` is
present. -/
def gpsAllKeys : List String :=
  ["Latitude", "Longitude", "LatitudeDegrees", "LatitudeMinutes", "LatitudeSeconds",
   "LongitudeDegrees", "LongitudeMinutes", "LongitudeSeconds"]

/-- A bag on which GPS cleaning is well-posed: either it has no latitude
and no longitude at all, or it carries all eight GPS keys as decimal
strings `float(...)` can parse. -/
def GoodGpsBag (bag : Bag) : Prop :=
  (assocLookup "Latitude" bag = none ∧ assocLookup "Longitude" bag = none) ∨
  (∀ k ∈ gpsAllKeys, ∃ t, assocLookup k bag = some (.vstr t) ∧ (parseFloat t).isSome = true)

/-- Latitude and longitude both numeric, or both absent (missing or
`None`). -/
def LatLonPaired (bag : Bag) : Prop :=
  (∃ p q, assocLookup "Latitude" bag = some (.vnum p) ∧
    assocLookup "Longitude" bag = some (.vnum q)) ∨
  ((assocLookup "Latitude" bag = none ∨ assocLookup "Latitude" bag = some .vnone) ∧
   (assocLookup "Longitude" bag = none ∨ assocLookup "Longitude" bag = some .vnone))

/-! ## Dynamic size bucketing (app.py lines 434–463)

`graph_images_size_dynamic` computes each image's minimum dimension, then
`num_bins = int(num_images / (num_images / nb_intervals))`, bins
`[i * (max_min_size / num_bins) for i in range(num_bins + 1)]`, and buckets
with `pd.cut` (right-closed intervals `(bins[i], bins[i+1]]`, values outside
every interval dropped), finally counting per category. -/

/-- `df['min_size'].max()` over the per-image minimum dimensions (the store
holds positive sizes, so folding from 0 returns the maximum). -/
def maxMinSize (ms : List ℚ) : ℚ := ms.foldl max 0

/-- `int(num_images / (num_images / nb_intervals))`; `int()` truncates
toward zero and both operands are nonnegative here, so flooring models
it.  -/
def numBins (n k : ℕ) : ℕ := (Int.floor ((n : ℚ) / ((n : ℚ) / (k : ℚ)))).toNat

def dynamicBins (ms : List ℚ) (nb_intervals : ℕ) : List ℚ :=
  (List.range (numBins ms.length nb_intervals + 1)).map
    fun i => (i : ℚ) * (maxMinSize ms / (numBins ms.length nb_intervals : ℚ))

/-- `pd.cut(x, bins)` with right-closed intervals: the index of the
interval `(bins[i], bins[i+1]]` containing `x`, if any. -/
def cutIdxGo : ℕ → List ℚ → ℚ → Option ℕ
  | i, lo :: hi :: rest, x =>
      if lo < x ∧ x ≤ hi then some i else cutIdxGo (i + 1) (hi :: rest) x
  | _, _, _ => none

def cutIdx (bins : List ℚ) (x : ℚ) : Option ℕ := cutIdxGo 0 bins x

/-- `value_counts` of the size categories: how many of the values fall in
each of the `bins.length - 1` intervals. -/
def cutCounts (bins : List ℚ) (xs : List ℚ) : List ℕ :=
  (List.range (bins.length - 1)).map fun i =>
    xs.countP fun x => cutIdx bins x == some i

/-! ## Tag categorization (app.py lines 913–948)

`categorize_tags` takes the caller's category list and an embedding
similarity; the similarity measure is abstracted as a function argument.
The per-word loop keeps a running `(max_similarity, chosen_category)`
initialized to `(-1, "other")` and updates on strictly greater similarity,
so ties keep the earlier category; the chosen word is then inserted into
`categories[chosen_category]`, which raises `KeyError` when the chosen key
(only ever `"other"`) is not one of the category keys. -/

/-- `categories = {}` then `categories[cate] = {}` per list element:
insertion-ordered keys with duplicates collapsed to their first
position. -/
def initCats (cats : List String) : List (String × List (String × ℚ)) :=
  cats.foldl (fun d c => assocUpdate c [] d) []

/-- The inner argmax loop of `categorize_tags` (lines 937–943),
generalized over the running accumulator for the sake of induction;
`chooseCat` fixes the code's initial `(-1, "other")`. -/
def chooseFold (sim : String → String → ℚ) (w : String) (acc : ℚ × String)
    (ks : List String) : ℚ × String :=
  ks.foldl (fun acc c => if sim w c > acc.1 then (sim w c, c) else acc) acc

/-- The inner argmax loop of `categorize_tags` (lines 937–943). -/
def chooseCat (sim : String → String → ℚ) (w : String) (ks : List String) : ℚ × String :=
  ks.foldl (fun acc c => if sim w c > acc.1 then (sim w c, c) else acc) ((-1 : ℚ), "other")

/-- One word's step: choose the category over the dict's keys, then
`categories[chosen_category].update({word: max_similarity})`. -/
def catStep (sim : String → String → ℚ)
    (d : List (String × List (String × ℚ))) (w : String) :
    Except String (List (String × List (String × ℚ))) :=
  match assocLookup (chooseCat sim w (d.map Prod.fst)).2 d with
  | some sub =>
      .ok (assocUpdate (chooseCat sim w (d.map Prod.fst)).2
        (assocUpdate w (chooseCat sim w (d.map Prod.fst)).1 sub) d)
  | none => .error ("KeyError: " ++ (chooseCat sim w (d.map Prod.fst)).2)

def categorize_tags (sim : String → String → ℚ) (tags : List String)
    (categories_list : List String) :
    Except String (List (String × List (String × ℚ))) :=
  tags.foldlM (catStep sim) (initCats categories_list)

end VizApp

namespace VizApp

/-! # Lemmas and claim theorems -/

theorem assocLookup_update_self {α : Type} (k : String) (v : α) (l : List (String × α)) :
    assocLookup k (assocUpdate k v l) = some v := by
  induction l with
  | nil => simp [assocUpdate, assocLookup]
  | cons p rest ih =>
      obtain ⟨k', v'⟩ := p
      by_cases h : k' = k
      · simp [assocUpdate, assocLookup, h]
      · simp [assocUpdate, assocLookup, h, ih]

theorem assocLookup_update_ne {α : Type} (k j : String) (v : α) (l : List (String × α))
    (hkj : j ≠ k) : assocLookup j (assocUpdate k v l) = assocLookup j l := by
  induction l with
  | nil => simp [assocUpdate, assocLookup, Ne.symm hkj]
  | cons p rest ih =>
      obtain ⟨k', v'⟩ := p
      by_cases h : k' = k
      · subst h
        simp [assocUpdate, assocLookup, Ne.symm hkj]
      · simp [assocUpdate, assocLookup, h, ih]

/-! Lemmas about `removeAll`: its output is a sublist of its input and a
missing pattern leaves the list unchanged. -/

theorem removeAllGo_sublist (p : List Char) :
    ∀ (fuel : ℕ) (l : List Char), (removeAllGo p fuel l).Sublist l := by
  intro fuel
  induction fuel with
  | zero => intro l; simp [removeAllGo]
  | succ n ih =>
      intro l
      match l with
      | [] => simp [removeAllGo]
      | c :: rest =>
          rw [removeAllGo]
          split
          · exact (ih _).trans (List.drop_sublist _ _)
          · exact (ih rest).cons₂ c

theorem removeAll_sublist (p l : List Char) : (removeAll p l).Sublist l :=
  removeAllGo_sublist p _ l

theorem removeAllGo_of_not_hasSub (p : List Char) :
    ∀ (fuel : ℕ) (l : List Char), hasSub p l = false → removeAllGo p fuel l = l := by
  intro fuel
  induction fuel with
  | zero => intro l _; simp [removeAllGo]
  | succ n ih =>
      intro l hns
      match l with
      | [] => simp [removeAllGo]
      | c :: rest =>
          rw [removeAllGo]
          rw [hasSub, Bool.or_eq_false_iff] at hns
          rw [if_neg (by simp [hns.1]), ih rest hns.2]

theorem removeAll_of_not_hasSub (p l : List Char) (h : hasSub p l = false) :
    removeAll p l = l :=
  removeAllGo_of_not_hasSub p _ l h

theorem filterAlpha_of_sublist_filter (l m : List Char)
    (h : m.Sublist (filterAlpha l)) : filterAlpha m = m := by
  apply List.filter_eq_self.mpr
  intro c hc
  have : c ∈ filterAlpha l := h.mem hc
  exact (List.mem_filter.mp this).2

/-- The cleaned make string is built from sublists of the alphabetic filter
of the input, so a second alphabetic filter is the identity on it. -/
theorem cleanMakeStr_toList_sublist (s : String) :
    (cleanMakeStr s).toList.Sublist (filterAlpha s.toList) := by
  show (cleanMakeStr s).toList.Sublist (filterAlpha s.toList)
  have h1 := removeAll_sublist "CORPORATION".toList (filterAlpha s.toList)
  have h2 := removeAll_sublist "CORP".toList
    (removeAll "CORPORATION".toList (filterAlpha s.toList))
  have h3 := removeAll_sublist "COMPANY".toList
    (removeAll "CORP".toList (removeAll "CORPORATION".toList (filterAlpha s.toList)))
  have h4 := removeAll_sublist "LTD".toList
    (removeAll "COMPANY".toList
      (removeAll "CORP".toList (removeAll "CORPORATION".toList (filterAlpha s.toList))))
  have h5 := removeAll_sublist "IMAGING".toList
    (removeAll "LTD".toList
      (removeAll "COMPANY".toList
        (removeAll "CORP".toList (removeAll "CORPORATION".toList (filterAlpha s.toList)))))
  exact (((h5.trans h4).trans h3).trans h2).trans h1

/-- C5 counterexample: make-string cleaning is not idempotent.  On the
input `"CORCORPP"` one application removes the inner `CORP` occurrence and
leaves `"CORP"`, and a second application removes that as well, so applying
the cleaner twice differs from applying it once. -/
theorem make_clean_not_idempotent :
    cleanMakeStr "CORCORPP" = "CORP" ∧
    cleanMakeStr (cleanMakeStr "CORCORPP") = "" ∧
    cleanMakeStr (cleanMakeStr "CORCORPP") ≠ cleanMakeStr "CORCORPP" := by
  refine ⟨by decide, by decide, by decide⟩

/-- C5 (amended): make-string cleaning is idempotent on every input whose
cleaned form contains none of the five corporate-suffix substrings.  (The
general claim fails because stripping a suffix can splice a new occurrence
together, as in `make_clean_not_idempotent`.) -/
theorem make_clean_idempotent_of_no_suffix (s : String)
    (h : ∀ p ∈ makePatterns, hasSub p.toList (cleanMakeStr s).toList = false) :
    cleanMakeStr (cleanMakeStr s) = cleanMakeStr s := by
  have hfilter : filterAlpha (cleanMakeStr s).toList = (cleanMakeStr s).toList :=
    filterAlpha_of_sublist_filter s.toList _ (cleanMakeStr_toList_sublist s)
  have h1 : hasSub "CORPORATION".toList (cleanMakeStr s).toList = false :=
    h "CORPORATION" (by simp [makePatterns])
  have h2 : hasSub "CORP".toList (cleanMakeStr s).toList = false :=
    h "CORP" (by simp [makePatterns])
  have h3 : hasSub "COMPANY".toList (cleanMakeStr s).toList = false :=
    h "COMPANY" (by simp [makePatterns])
  have h4 : hasSub "LTD".toList (cleanMakeStr s).toList = false :=
    h "LTD" (by simp [makePatterns])
  have h5 : hasSub "IMAGING".toList (cleanMakeStr s).toList = false :=
    h "IMAGING" (by simp [makePatterns])
  show (⟨_⟩ : String) = cleanMakeStr s
  rw [hfilter, removeAll_of_not_hasSub _ _ h1, removeAll_of_not_hasSub _ _ h2,
    removeAll_of_not_hasSub _ _ h3, removeAll_of_not_hasSub _ _ h4,
    removeAll_of_not_hasSub _ _ h5]
  rfl

/-- C5 witness: the amended idempotence theorem applied at the spec's own
example `"NIKON CORPORATION"`, whose cleaned form `"NIKON"` contains no
corporate-suffix substring. -/
theorem make_clean_idempotent_of_no_suffix_witness :
    cleanMakeStr (cleanMakeStr "NIKON CORPORATION") = cleanMakeStr "NIKON CORPORATION" :=
  make_clean_idempotent_of_no_suffix "NIKON CORPORATION" (by decide)

/-- C6 counterexample: DMS-to-decimal conversion is not sign-correct for
arbitrary minute/second signs.  With degrees `-1` and minutes `-6000` the
inner sum `|d| + m/60 + s/3600` is `-99`, and negating it yields `99 > 0`,
so negative degrees do not force a negative result. -/
theorem dms_to_decimal_not_sign_correct :
    dms_to_decimal (-1) (-6000) 0 = 99 ∧ ¬ dms_to_decimal (-1) (-6000) 0 < 0 := by
  constructor
  · norm_num [dms_to_decimal]
  · norm_num [dms_to_decimal]

/-- C6 (amended): for strictly negative degrees and nonnegative minutes and
seconds, DMS-to-decimal conversion returns a strictly negative value. -/
theorem dms_to_decimal_neg_of_neg_degrees (d m s : ℚ)
    (hd : d < 0) (hm : 0 ≤ m) (hs : 0 ≤ s) : dms_to_decimal d m s < 0 := by
  have habs : |d| = -d := abs_of_neg hd
  have hm60 : 0 ≤ m / 60 := by positivity
  have hs3600 : 0 ≤ s / 3600 := by positivity
  simp only [dms_to_decimal, if_pos hd, habs]
  linarith

/-- C6 witness: the amended sign theorem at the concrete input
`(-48, 52, 30)`. -/
theorem dms_to_decimal_neg_of_neg_degrees_witness :
    dms_to_decimal (-48) 52 30 < 0 :=
  dms_to_decimal_neg_of_neg_degrees (-48) 52 30 (by norm_num) (by norm_num) (by norm_num)

/-- C1 counterexample: the countries aggregation handler does not reject the
invalid graph-type selector `"scatter"`; its bare `else` branch falls back
to producing both default charts. -/
theorem countries_dispatch_scatter_not_rejected :
    graph_images_countries_dispatch "scatter" = .ok .barPie := by rfl

/-- C1 (amended): `graph_images_size_dynamic` raises `ValueError` on every
selector outside `bar`/`pie`/`all`, but `graph_images_countries` never
raises: every selector outside `bar`/`pie` falls back to returning both the
bar and the pie chart. -/
theorem invalid_graph_type_dispatch (g g' : String)
    (h1 : g ≠ "bar") (h2 : g ≠ "pie") (h3 : g ≠ "all")
    (h4 : g' ≠ "bar") (h5 : g' ≠ "pie") :
    graph_images_size_dynamic_dispatch g = .error "Invalid graph type" ∧
    graph_images_countries_dispatch g' = .ok .barPie := by
  constructor
  · simp [graph_images_size_dynamic_dispatch, h1, h2, h3]
  · simp [graph_images_countries_dispatch, h4, h5]

/-- C1 witness: the amended dispatch theorem at the selector `"scatter"`
for both handlers. -/
theorem invalid_graph_type_dispatch_witness :
    graph_images_size_dynamic_dispatch "scatter" = .error "Invalid graph type" ∧
    graph_images_countries_dispatch "scatter" = .ok .barPie :=
  invalid_graph_type_dispatch "scatter" "scatter"
    (by decide) (by decide) (by decide) (by decide) (by decide)

/-- C2: the cache file written by a metadata request never short-circuits
the store query of the next request, because the handler writes
`'./metadata/metadata.csv'` but checks for `'mon_dataframe.csv'`: starting
from any filesystem without `'mon_dataframe.csv'`, both the first and the
second request hit the store. -/
theorem metadata_cache_never_hit (st : FsState)
    (h : "mon_dataframe.csv" ∉ st.files) :
    (get_metadata st).1 = .store ∧
    (get_metadata (get_metadata st).2).1 = .store := by
  have hwritten : metadata_path ++ "/metadata.csv" ≠ "mon_dataframe.csv" := by decide
  have h2 : "mon_dataframe.csv" ∉ (metadata_path ++ "/metadata.csv") :: st.files := by
    intro hmem
    rcases List.mem_cons.mp hmem with heq | hmem2
    · exact hwritten heq.symm
    · exact h hmem2
  have hst : get_metadata st =
      (MetaSrc.store, ⟨(metadata_path ++ "/metadata.csv") :: st.files⟩) := by
    unfold get_metadata
    rw [if_neg h]
  refine ⟨by rw [hst], ?_⟩
  rw [hst]
  unfold get_metadata
  rw [if_neg h2]

/-- C2 witness: the cache-miss theorem applied to the empty filesystem. -/
theorem metadata_cache_never_hit_witness :
    (get_metadata ⟨[]⟩).1 = .store ∧
    (get_metadata (get_metadata ⟨[]⟩).2).1 = .store :=
  metadata_cache_never_hit ⟨[]⟩ (by decide)

theorem loader_foldl_lookup_absent (f : String) :
    ∀ (rows : List (String × String)) (acc : List (String × List (String × String))),
      f ∉ rows.map Prod.fst →
      assocLookup f
        (rows.foldl (fun result row => assocUpdate row.1 (rowProps row.2).1 result) acc) =
      assocLookup f acc := by
  intro rows
  induction rows with
  | nil => intro acc _; rfl
  | cons r rest ih =>
      intro acc hnm
      rw [List.map_cons, List.mem_cons, not_or] at hnm
      rw [List.foldl_cons, ih _ hnm.2, assocLookup_update_ne _ _ _ _ hnm.1]

theorem loader_foldl_lookup_mem (f : String) (block : String) :
    ∀ (rows : List (String × String)) (acc : List (String × List (String × String))),
      (rows.map Prod.fst).Nodup → (f, block) ∈ rows →
      assocLookup f
        (rows.foldl (fun result row => assocUpdate row.1 (rowProps row.2).1 result) acc) =
      some (rowProps block).1 := by
  intro rows
  induction rows with
  | nil => intro acc _ hmem; exact absurd hmem (List.not_mem_nil _)
  | cons r rest ih =>
      intro acc hnd hmem
      rw [List.map_cons, List.nodup_cons] at hnd
      rw [List.foldl_cons]
      rcases List.mem_cons.mp hmem with heq | hmem2
      · have hf : r.1 = f := by rw [← heq]
        have hblk : r.2 = block := by rw [← heq]
        rw [loader_foldl_lookup_absent f rest _ (by rw [← hf]; exact hnd.1), hf, hblk,
          assocLookup_update_self]
      · exact ih _ hnd.2 hmem2

/-- C7 counterexample: a malformed line does not remove the offending
file's entry.  The block of `"a.jpg"` has one good line and then the
malformed line `"bad"`; the returned mapping still contains an entry for
`"a.jpg"` holding the partially parsed bag `[("k1","v1")]`. -/
theorem loader_partial_entry_retained :
    get_metadata_from_mariadb_db [("a.jpg", "k1\tv1\nbad"), ("b.jpg", "k2\tv2")] =
      [("a.jpg", [("k1", "v1")]), ("b.jpg", [("k2", "v2")])] ∧
    assocLookup "a.jpg"
        (get_metadata_from_mariadb_db [("a.jpg", "k1\tv1\nbad"), ("b.jpg", "k2\tv2")]) =
      some [("k1", "v1")] ∧
    (rowProps "k1\tv1\nbad").2 = false := by
  refine ⟨by decide, by decide, by decide⟩

/-- C7 (amended): for every fetched row set with distinct filenames, every
row's file has an entry in the returned mapping, equal to the property bag
accumulated up to the first malformed line of its block (the full bag when
the block is well-formed); in particular a parse failure leaves the
offending file's partial entry in place and other files unaffected. -/
theorem loader_entry_is_partial_bag (rows : List (String × String))
    (f block : String) (hnd : (rows.map Prod.fst).Nodup) (hmem : (f, block) ∈ rows) :
    assocLookup f (get_metadata_from_mariadb_db rows) = some (rowProps block).1 :=
  loader_foldl_lookup_mem f block rows [] hnd hmem

/-- C7 witness: the amended loader theorem at the concrete two-row set with
one malformed block. -/
theorem loader_entry_is_partial_bag_witness :
    assocLookup "a.jpg"
        (get_metadata_from_mariadb_db [("a.jpg", "k1\tv1\nbad"), ("b.jpg", "k2\tv2")]) =
      some (rowProps "k1\tv1\nbad").1 :=
  loader_entry_is_partial_bag [("a.jpg", "k1\tv1\nbad"), ("b.jpg", "k2\tv2")]
    "a.jpg" "k1\tv1\nbad" (by decide) (by decide)

theorem getD_set_ne {α : Type} (l : List α) (i j : ℕ) (x d : α) (hij : i ≠ j) :
    (l.set i x).getD j d = l.getD j d := by
  induction l generalizing i j with
  | nil => simp
  | cons c rest ih =>
      cases i with
      | zero =>
          cases j with
          | zero => exact absurd rfl hij
          | succ j' => simp [List.getD]
      | succ i' =>
          cases j with
          | zero => simp [List.getD]
          | succ j' =>
              simp only [List.set, List.getD_cons_succ]
              exact ih i' j' (fun hc => hij (by rw [hc]))

theorem getD_set_self {α : Type} (l : List α) (i : ℕ) (x d : α) (hi : i < l.length) :
    (l.set i x).getD i d = x := by
  induction l generalizing i with
  | nil => simp at hi
  | cons c rest ih =>
      cases i with
      | zero => simp [List.getD]
      | succ i' =>
          simp only [List.set, List.getD_cons_succ]
          exact ih i' (by simpa using hi)

theorem phaseOpt_length (step : Bag → Option Bag) :
    ∀ (top : TopMap) (h : Heap), (phaseOpt step top h).length = h.length := by
  intro top
  induction top with
  | nil => intro h; rfl
  | cons e rest ih =>
      intro h
      rw [phaseOpt]
      cases hstep : step (h.getD e.2 []) with
      | some b => rw [ih, List.length_set]
      | none => rfl

theorem phaseOpt_getD_notmem (step : Bag → Option Bag) :
    ∀ (top : TopMap) (h : Heap) (a : ℕ), a ∉ top.map Prod.snd →
      (phaseOpt step top h).getD a [] = h.getD a [] := by
  intro top
  induction top with
  | nil => intro h a _; rfl
  | cons e rest ih =>
      intro h a ha
      rw [List.map_cons, List.mem_cons, not_or] at ha
      rw [phaseOpt]
      cases hstep : step (h.getD e.2 []) with
      | some b => rw [ih _ _ ha.2, getD_set_ne _ _ _ _ _ (fun hc => ha.1 hc.symm)]
      | none => rfl

theorem phaseOpt_getD_mem (step : Bag → Option Bag) :
    ∀ (top : TopMap) (h : Heap),
      (top.map Prod.snd).Nodup → (∀ e ∈ top, e.2 < h.length) →
      (∀ e ∈ top, (step (h.getD e.2 [])).isSome = true) →
      ∀ f a, (f, a) ∈ top →
        ∃ b, step (h.getD a []) = some b ∧ (phaseOpt step top h).getD a [] = b := by
  intro top
  induction top with
  | nil => intro h _ _ _ f a hmem; exact absurd hmem (List.not_mem_nil _)
  | cons e rest ih =>
      intro h hnd hlen hsucc f a hmem
      rw [List.map_cons, List.nodup_cons] at hnd
      obtain ⟨b, hb⟩ := Option.isSome_iff_exists.mp (hsucc e (List.mem_cons_self e rest))
      rw [phaseOpt, hb]
      rcases List.mem_cons.mp hmem with heq | hmem2
      · have ha : a = e.2 := by rw [← heq]
        refine ⟨b, by rw [ha]; exact hb, ?_⟩
        rw [ha, phaseOpt_getD_notmem step rest _ _ hnd.1,
          getD_set_self _ _ _ _ (hlen e (List.mem_cons_self e rest))]
      · have hamem : a ∈ rest.map Prod.snd :=
          List.mem_map.mpr ⟨(f, a), hmem2, rfl⟩
        have hane : a ≠ e.2 := fun hc => hnd.1 (hc ▸ hamem)
        have hgd : ∀ e' ∈ rest, (h.set e.2 b).getD e'.2 [] = h.getD e'.2 [] := by
          intro e' he'
          have : e'.2 ∈ rest.map Prod.snd := List.mem_map.mpr ⟨e', he', rfl⟩
          exact getD_set_ne _ _ _ _ _ (fun hc => hnd.1 (hc ▸ this))
        obtain ⟨b', hb'1, hb'2⟩ := ih (h.set e.2 b) hnd.2
          (fun e' he' => by rw [List.length_set]; exact hlen e' (List.mem_cons_of_mem e he'))
          (fun e' he' => by rw [hgd e' he']; exact hsucc e' (List.mem_cons_of_mem e he'))
          f a hmem2
        refine ⟨b', ?_, hb'2⟩
        rw [getD_set_ne _ _ _ _ _ (Ne.symm hane)] at hb'1
        exact hb'1

theorem phaseExc_ok (step : Bag → Except String Bag) :
    ∀ (top : TopMap) (h : Heap),
      (top.map Prod.snd).Nodup → (∀ e ∈ top, e.2 < h.length) →
      (∀ e ∈ top, ∃ b, step (h.getD e.2 []) = .ok b) →
      ∃ h', phaseExc step top h = .ok h' ∧ h'.length = h.length ∧
        (∀ a, a ∉ top.map Prod.snd → h'.getD a [] = h.getD a []) ∧
        (∀ f a, (f, a) ∈ top →
          ∃ b, step (h.getD a []) = .ok b ∧ h'.getD a [] = b) := by
  intro top
  induction top with
  | nil =>
      intro h _ _ _
      exact ⟨h, rfl, rfl, fun a _ => rfl, fun f a hmem => absurd hmem (List.not_mem_nil _)⟩
  | cons e rest ih =>
      intro h hnd hlen hsucc
      rw [List.map_cons, List.nodup_cons] at hnd
      obtain ⟨b, hb⟩ := hsucc e (List.mem_cons_self e rest)
      have hgd : ∀ e' ∈ rest, (h.set e.2 b).getD e'.2 [] = h.getD e'.2 [] := by
        intro e' he'
        have : e'.2 ∈ rest.map Prod.snd := List.mem_map.mpr ⟨e', he', rfl⟩
        exact getD_set_ne _ _ _ _ _ (fun hc => hnd.1 (hc ▸ this))
      obtain ⟨h', hph, hlen', hnot, hmem'⟩ := ih (h.set e.2 b) hnd.2
        (fun e' he' => by rw [List.length_set]; exact hlen e' (List.mem_cons_of_mem e he'))
        (fun e' he' => by rw [hgd e' he']; exact hsucc e' (List.mem_cons_of_mem e he'))
      refine ⟨h', by rw [phaseExc, hb]; exact hph, by rw [hlen', List.length_set], ?_, ?_⟩
      · intro a ha
        rw [List.map_cons, List.mem_cons, not_or] at ha
        rw [hnot a ha.2, getD_set_ne _ _ _ _ _ (fun hc => ha.1 hc.symm)]
      · intro f a hmem
        rcases List.mem_cons.mp hmem with heq | hmem2
        · have ha : a = e.2 := by rw [← heq]
          refine ⟨b, by rw [ha]; exact hb, ?_⟩
          rw [ha, hnot _ hnd.1, getD_set_self _ _ _ _ (hlen e (List.mem_cons_self e rest))]
        · have hamem : a ∈ rest.map Prod.snd :=
            List.mem_map.mpr ⟨(f, a), hmem2, rfl⟩
          have hane : a ≠ e.2 := fun hc => hnd.1 (hc ▸ hamem)
          obtain ⟨b', hb'1, hb'2⟩ := hmem' f a hmem2
          refine ⟨b', ?_, hb'2⟩
          rw [getD_set_ne _ _ _ _ _ (Ne.symm hane)] at hb'1
          exact hb'1

theorem getFloat_of_lookup (bag : Bag) (k t : String) (q : ℚ)
    (hk : assocLookup k bag = some (.vstr t)) (hq : parseFloat t = some q) :
    getFloat bag k = .ok q := by
  simp only [getFloat, getKey, hk, pyFloat, hq]

theorem latlon_pair_updates (bag : Bag) (p q : ℚ) :
    LatLonPaired (assocUpdate "Longitude" (.vnum q) (assocUpdate "Latitude" (.vnum p) bag)) := by
  left
  refine ⟨p, q, ?_, ?_⟩
  · rw [assocLookup_update_ne _ _ _ _ (by decide), assocLookup_update_self]
  · rw [assocLookup_update_self]

theorem latlon_pair_none (bag : Bag) :
    LatLonPaired (assocUpdate "Altitude" .vnone
      (assocUpdate "Longitude" .vnone (assocUpdate "Latitude" .vnone bag))) := by
  right
  constructor
  · right
    rw [assocLookup_update_ne _ _ _ _ (by decide),
      assocLookup_update_ne _ _ _ _ (by decide), assocLookup_update_self]
  · right
    rw [assocLookup_update_ne _ _ _ _ (by decide), assocLookup_update_self]

/-- On a well-posed bag the GPS step succeeds and leaves latitude and
longitude paired: both numeric or both `None`/absent. -/
theorem bagGpsStep_good (bag : Bag) (hgood : GoodGpsBag bag) :
    ∃ b, bagGpsStep bag = .ok b ∧ LatLonPaired b := by
  rcases hgood with ⟨hlat, hlon⟩ | hkeys
  · refine ⟨bag, ?_, Or.inr ⟨Or.inl hlat, Or.inl hlon⟩⟩
    unfold bagGpsStep
    rw [hlat]
  · obtain ⟨t1, hk1, hp1⟩ := hkeys "Latitude" (by simp [gpsAllKeys])
    obtain ⟨t2, hk2, hp2⟩ := hkeys "Longitude" (by simp [gpsAllKeys])
    obtain ⟨t3, hk3, hp3⟩ := hkeys "LatitudeDegrees" (by simp [gpsAllKeys])
    obtain ⟨t4, hk4, hp4⟩ := hkeys "LatitudeMinutes" (by simp [gpsAllKeys])
    obtain ⟨t5, hk5, hp5⟩ := hkeys "LatitudeSeconds" (by simp [gpsAllKeys])
    obtain ⟨t6, hk6, hp6⟩ := hkeys "LongitudeDegrees" (by simp [gpsAllKeys])
    obtain ⟨t7, hk7, hp7⟩ := hkeys "LongitudeMinutes" (by simp [gpsAllKeys])
    obtain ⟨t8, hk8, hp8⟩ := hkeys "LongitudeSeconds" (by simp [gpsAllKeys])
    obtain ⟨q1, hq1⟩ := Option.isSome_iff_exists.mp hp1
    obtain ⟨q2, hq2⟩ := Option.isSome_iff_exists.mp hp2
    obtain ⟨q3, hq3⟩ := Option.isSome_iff_exists.mp hp3
    obtain ⟨q4, hq4⟩ := Option.isSome_iff_exists.mp hp4
    obtain ⟨q5, hq5⟩ := Option.isSome_iff_exists.mp hp5
    obtain ⟨q6, hq6⟩ := Option.isSome_iff_exists.mp hp6
    obtain ⟨q7, hq7⟩ := Option.isSome_iff_exists.mp hp7
    obtain ⟨q8, hq8⟩ := Option.isSome_iff_exists.mp hp8
    have hdms : ∃ hd, gpsHasDms bag = .ok hd := by
      by_cases hcond : mvalNeqStr (.vstr t3) "0.000000" = true
      · exact ⟨true, by simp only [gpsHasDms, getKey, hk3, if_pos hcond]⟩
      · exact ⟨mvalNeqStr (.vstr t6) "0.000000",
          by simp only [gpsHasDms, getKey, hk3, if_neg hcond, hk6]⟩
    obtain ⟨hd, hdms_eq⟩ := hdms
    have hdec : ∃ hc, gpsHasDec bag (.vstr t1) = .ok hc := by
      by_cases hcond : mvalNeqStr (.vstr t1) "0.000000" = true
      · exact ⟨true, by simp only [gpsHasDec, getKey, if_pos hcond]⟩
      · exact ⟨mvalNeqStr (.vstr t2) "0.000000",
          by simp only [gpsHasDec, getKey, if_neg hcond, hk2]⟩
    obtain ⟨hc, hdec_eq⟩ := hdec
    by_cases hor : (hd || hc) = true
    · by_cases hconv : (!(t1.toList.contains '.') && hd) = true
      · refine ⟨_, ?_, latlon_pair_updates bag (dms_to_decimal q3 q4 q5) (dms_to_decimal q6 q7 q8)⟩
        simp only [bagGpsStep, hk1, hdms_eq, hdec_eq, if_pos hor, mvalNoDot,
          getFloat_of_lookup bag "LatitudeDegrees" t3 q3 hk3 hq3,
          getFloat_of_lookup bag "LatitudeMinutes" t4 q4 hk4 hq4,
          getFloat_of_lookup bag "LatitudeSeconds" t5 q5 hk5 hq5,
          getFloat_of_lookup bag "LongitudeDegrees" t6 q6 hk6 hq6,
          getFloat_of_lookup bag "LongitudeMinutes" t7 q7 hk7 hq7,
          getFloat_of_lookup bag "LongitudeSeconds" t8 q8 hk8 hq8]
        rw [if_pos hconv]
      · refine ⟨_, ?_, latlon_pair_updates bag q1 q2⟩
        simp only [bagGpsStep, hk1, hdms_eq, hdec_eq, if_pos hor, mvalNoDot,
          getFloat_of_lookup bag "Latitude" t1 q1 hk1 hq1,
          getFloat_of_lookup bag "Longitude" t2 q2 hk2 hq2]
        rw [if_neg hconv]
    · refine ⟨_, ?_, latlon_pair_none bag⟩
      simp only [bagGpsStep, hk1, hdms_eq, hdec_eq, if_neg hor]

/-- C3 counterexample: GPS cleaning neither keeps latitude and longitude
paired nor survives a record with a latitude field but missing companion
fields.  A record holding only `'Latitude'` makes `clean_gps_infos` raise
`KeyError` on the absent `'LatitudeDegrees'`, and a record holding only
`'Longitude'` is left untouched — exactly one of the two coordinates
populated. -/
theorem gps_cleaning_violations :
    clean_gps_infos [("a", 0)] [[("Latitude", .vstr "1.5")]] =
      .error "KeyError: LatitudeDegrees" ∧
    clean_gps_infos [("b", 0)] [[("Longitude", .vstr "5.0")]] =
      .ok [[("Longitude", .vstr "5.0")]] ∧
    ¬ LatLonPaired [("Longitude", MVal.vstr "5.0")] := by
  refine ⟨by decide, by decide, ?_⟩
  intro hpair
  have hnone : assocLookup "Latitude" [("Longitude", MVal.vstr "5.0")] = (none : Option MVal) := by
    decide
  have hlon : assocLookup "Longitude" [("Longitude", MVal.vstr "5.0")] =
      some (MVal.vstr "5.0") := by decide
  rcases hpair with ⟨p, q, hp, _⟩ | ⟨_, hq⟩
  · rw [hnone] at hp
    cases hp
  · rcases hq with hq | hq <;> rw [hlon] at hq <;> cases hq

/-- C3 (amended): on every mapping whose records are GPS-well-posed — each
record either has neither latitude nor longitude, or carries all eight GPS
keys as parsable decimal strings — GPS cleaning succeeds and every cleaned
record has latitude and longitude paired: both numeric or both absent.
A record with a latitude field but missing companion fields instead raises
`KeyError`, and a record with only a longitude is left with exactly one
coordinate populated (`gps_cleaning_violations`). -/
theorem gps_cleaning_pairs_lat_lon (top : TopMap) (h : Heap)
    (hnd : (top.map Prod.snd).Nodup) (hlen : ∀ e ∈ top, e.2 < h.length)
    (hgood : ∀ e ∈ top, GoodGpsBag (h.getD e.2 [])) :
    ∃ h', clean_gps_infos top h = .ok h' ∧
      ∀ f a, (f, a) ∈ top → LatLonPaired (h'.getD a []) := by
  obtain ⟨h', hok, _, _, hmem⟩ := phaseExc_ok bagGpsStep top h hnd hlen
    (fun e he => by
      obtain ⟨b, hb, _⟩ := bagGpsStep_good _ (hgood e he)
      exact ⟨b, hb⟩)
  refine ⟨h', hok, ?_⟩
  intro f a hfa
  obtain ⟨b, hb, hgd⟩ := hmem f a hfa
  have hgood' : GoodGpsBag (h.getD a []) := by
    have := hgood (f, a) hfa
    exact this
  obtain ⟨b', hb', hpair⟩ := bagGpsStep_good _ hgood'
  rw [hb] at hb'
  rw [hgd, Except.ok.inj hb']
  exact hpair

/-- C3 witness: the amended pairing theorem on a one-record mapping whose
eight GPS fields all hold the sentinel `'0.000000'`; cleaning succeeds and
sets latitude and longitude both to `None`. -/
theorem gps_cleaning_pairs_lat_lon_witness :
    ∃ h', clean_gps_infos [("img", 0)]
        [[("Latitude", .vstr "0.000000"), ("Longitude", .vstr "0.000000"),
          ("LatitudeDegrees", .vstr "0.000000"), ("LatitudeMinutes", .vstr "0.000000"),
          ("LatitudeSeconds", .vstr "0.000000"), ("LongitudeDegrees", .vstr "0.000000"),
          ("LongitudeMinutes", .vstr "0.000000"), ("LongitudeSeconds", .vstr "0.000000")]] =
        .ok h' ∧
      ∀ f a, (f, a) ∈ ([("img", 0)] : TopMap) → LatLonPaired (h'.getD a []) := by
  refine gps_cleaning_pairs_lat_lon _ _ (by decide) ?_ ?_
  · intro e he
    simp only [List.mem_singleton] at he
    rw [he]
    decide
  · intro e he
    simp only [List.mem_singleton] at he
    rw [he]
    right
    intro k hk
    simp only [gpsAllKeys, List.mem_cons, List.not_mem_nil, or_false] at hk
    rcases hk with h | h | h | h | h | h | h | h <;> subst h <;>
      exact ⟨"0.000000", by decide, by decide⟩

theorem excToOpt_eq_some {α : Type} (x : Except String α) (a : α) :
    excToOpt x = some a ↔ x = .ok a := by
  cases x <;> simp [excToOpt]

theorem cleanBagFull_eq_some (now : DT) (bag b : Bag)
    (h : cleanBagFull now bag = some b) :
    ∃ b1 b2 b3, bagMakeStep bag = some b1 ∧ bagDateStep now b1 = some b2 ∧
      bagTagsStep b2 = .ok b3 ∧ bagGpsStep b3 = .ok b := by
  unfold cleanBagFull at h
  rcases Option.bind_eq_some.mp h with ⟨b1, h1, h⟩
  rcases Option.bind_eq_some.mp h with ⟨b2, h2, h⟩
  rcases Option.bind_eq_some.mp h with ⟨b3, h3, h4⟩
  exact ⟨b1, b2, b3, h1, h2, (excToOpt_eq_some _ _).mp h3, (excToOpt_eq_some _ _).mp h4⟩

theorem bagMakeStep_make (bag b : Bag) (s : String)
    (hlook : assocLookup "Make" bag = some (.vstr s))
    (hstep : bagMakeStep bag = some b) :
    assocLookup "Make" b = some (.vstr (cleanMakeStr s)) := by
  simp only [bagMakeStep, hlook] at hstep
  rw [← Option.some.inj hstep]
  exact assocLookup_update_self _ _ _

theorem bagDateStep_preserves (now : DT) (bag b : Bag) (k : String)
    (hk : k ≠ "DateTimeOriginal") (hstep : bagDateStep now bag = some b) :
    assocLookup k b = assocLookup k bag := by
  unfold bagDateStep at hstep
  split at hstep
  · rw [← Option.some.inj hstep]
  · rw [← Option.some.inj hstep]
  · split at hstep
    · rw [← Option.some.inj hstep]
      exact assocLookup_update_ne _ _ _ _ hk
    · rw [← Option.some.inj hstep]
      exact assocLookup_update_ne _ _ _ _ hk
  · cases hstep

theorem bagTagsStep_preserves (bag b : Bag) (k : String)
    (hk : k ≠ "tags") (hstep : bagTagsStep bag = .ok b) :
    assocLookup k b = assocLookup k bag := by
  unfold bagTagsStep at hstep
  split at hstep
  · rw [← Except.ok.inj hstep]
  · rw [← Except.ok.inj hstep]
    exact assocLookup_update_ne _ _ _ _ hk
  · split at hstep
    · rw [← Except.ok.inj hstep]
      exact assocLookup_update_ne _ _ _ _ hk
    · cases hstep
  · cases hstep

theorem bagGpsStep_preserves (bag b : Bag) (k : String)
    (h1 : k ≠ "Latitude") (h2 : k ≠ "Longitude") (h3 : k ≠ "Altitude")
    (hstep : bagGpsStep bag = .ok b) : assocLookup k b = assocLookup k bag := by
  unfold bagGpsStep at hstep
  repeat' split at hstep
  all_goals try cases hstep
  all_goals
    first
    | rfl
    | (rw [assocLookup_update_ne _ _ _ _ h3, assocLookup_update_ne _ _ _ _ h2,
        assocLookup_update_ne _ _ _ _ h1])
    | (rw [assocLookup_update_ne _ _ _ _ h2, assocLookup_update_ne _ _ _ _ h1])

/-- C4 counterexample: a capture timestamp strictly later than the current
date but within the current year is kept, not discarded.  With the current
date 2026-10-12, the stored string `"2026:12:31 10:00:00"` parses to a
strictly later timestamp, yet the cleaning step stores the parsed value
instead of `None`, because the code only compares years. -/
theorem future_date_within_year_kept :
    parseDateTime "2026:12:31 10:00:00" = some ⟨2026, 12, 31, 10, 0, 0⟩ ∧
    dtLater ⟨2026, 12, 31, 10, 0, 0⟩ ⟨2026, 10, 12, 0, 0, 0⟩ = true ∧
    bagDateStep ⟨2026, 10, 12, 0, 0, 0⟩
        [("DateTimeOriginal", .vstr "2026:12:31 10:00:00")] =
      some [("DateTimeOriginal", .vdate ⟨2026, 12, 31, 10, 0, 0⟩)] := by
  refine ⟨by decide, by decide, by decide⟩

/-- C4 (amended): a parsed capture timestamp is discarded to `None` exactly
when its year strictly exceeds the current year; otherwise the parsed value
is kept — so a future date within the current year survives. -/
theorem date_discarded_iff_year_exceeds (now : DT) (bag : Bag) (s : String) (dt : DT)
    (hlook : assocLookup "DateTimeOriginal" bag = some (.vstr s))
    (hparse : parseDateTime s = some dt) :
    bagDateStep now bag =
      some (assocUpdate "DateTimeOriginal"
        (if now.year < dt.year then .vnone else .vdate dt) bag) := by
  unfold bagDateStep
  rw [hlook]
  dsimp only
  rw [hparse]

/-- C4 witness: the amended discard theorem at a stored timestamp in 2030
with current year 2026; the field is discarded to `None`. -/
theorem date_discarded_iff_year_exceeds_witness :
    bagDateStep ⟨2026, 1, 1, 0, 0, 0⟩
        [("DateTimeOriginal", .vstr "2030:01:01 00:00:00")] =
      some [("DateTimeOriginal", MVal.vnone)] := by
  rw [date_discarded_iff_year_exceeds ⟨2026, 1, 1, 0, 0, 0⟩
    [("DateTimeOriginal", .vstr "2030:01:01 00:00:00")] "2030:01:01 00:00:00"
    ⟨2030, 1, 1, 0, 0, 0⟩ (by decide) (by decide)]
  decide

/-- C10: the metadata cleaner is not pure with respect to its argument.  It
returns the very same top-level address map it was given (the shallow
`copy()` preserves every per-file bag reference), while the cleaning loops
overwrite the bags in the shared heap: after a successful run, the bag the
caller's raw mapping still points to holds the cleaned `Make` value, not
the raw one, so the caller's raw mapping does not survive the call
unchanged. -/
theorem clean_metadata_mutates_shared_bags
    (now : DT) (top : TopMap) (h : Heap)
    (hnd : (top.map Prod.snd).Nodup) (hlen : ∀ e ∈ top, e.2 < h.length)
    (hsucc : ∀ e ∈ top, (cleanBagFull now (h.getD e.2 [])).isSome = true)
    (f : String) (a : ℕ) (s : String) (hmem : (f, a) ∈ top)
    (hmake : assocLookup "Make" (h.getD a []) = some (.vstr s))
    (hchg : cleanMakeStr s ≠ s) :
    ∃ h' b, clean_metadata now top h = .ok (top, h') ∧
      cleanBagFull now (h.getD a []) = some b ∧ h'.getD a [] = b ∧
      assocLookup "Make" b = some (.vstr (cleanMakeStr s)) ∧
      h'.getD a [] ≠ h.getD a [] := by
  have hchain : ∀ e ∈ top, ∃ c1 c2 c3 c4,
      bagMakeStep (h.getD e.2 []) = some c1 ∧ bagDateStep now c1 = some c2 ∧
      bagTagsStep c2 = .ok c3 ∧ bagGpsStep c3 = .ok c4 := by
    intro e he
    obtain ⟨bb, hbb⟩ := Option.isSome_iff_exists.mp (hsucc e he)
    obtain ⟨c1, c2, c3, hc1, hc2, hc3, hc4⟩ := cleanBagFull_eq_some now _ bb hbb
    exact ⟨c1, c2, c3, bb, hc1, hc2, hc3, hc4⟩
  have hmeta : ∀ (e : String × ℕ), e ∈ top → (e.1, e.2) ∈ top := by
    intro e he
    rw [Prod.mk.eta]
    exact he
  have hsucc1 : ∀ e ∈ top, (bagMakeStep (h.getD e.2 [])).isSome = true := by
    intro e he
    obtain ⟨c1, _, _, _, hc1, _, _, _⟩ := hchain e he
    rw [hc1]
    rfl
  have hget1 := phaseOpt_getD_mem bagMakeStep top h hnd hlen hsucc1
  have hlen1 : ∀ e ∈ top, e.2 < (phaseOpt bagMakeStep top h).length := by
    intro e he
    rw [phaseOpt_length]
    exact hlen e he
  have hsucc2 : ∀ e ∈ top,
      (bagDateStep now ((phaseOpt bagMakeStep top h).getD e.2 [])).isSome = true := by
    intro e he
    obtain ⟨c1, c2, _, _, hc1, hc2, _, _⟩ := hchain e he
    obtain ⟨d1, hd1, hd1gd⟩ := hget1 e.1 e.2 (hmeta e he)
    rw [hd1gd, Option.some.inj (hd1.symm.trans hc1), hc2]
    rfl
  have hget2 := phaseOpt_getD_mem (bagDateStep now) top
    (phaseOpt bagMakeStep top h) hnd hlen1 hsucc2
  have hlen2 : ∀ e ∈ top,
      e.2 < (phaseOpt (bagDateStep now) top (phaseOpt bagMakeStep top h)).length := by
    intro e he
    rw [phaseOpt_length]
    exact hlen1 e he
  have hsucc3 : ∀ e ∈ top, ∃ bb,
      bagTagsStep ((phaseOpt (bagDateStep now) top
        (phaseOpt bagMakeStep top h)).getD e.2 []) = .ok bb := by
    intro e he
    obtain ⟨c1, c2, c3, _, hc1, hc2, hc3, _⟩ := hchain e he
    obtain ⟨d1, hd1, hd1gd⟩ := hget1 e.1 e.2 (hmeta e he)
    obtain ⟨d2, hd2, hd2gd⟩ := hget2 e.1 e.2 (hmeta e he)
    rw [hd1gd, Option.some.inj (hd1.symm.trans hc1)] at hd2
    rw [hd2gd, Option.some.inj (hd2.symm.trans hc2), hc3]
    exact ⟨c3, rfl⟩
  obtain ⟨h3, hph3, hlen3, hnot3, hget3⟩ := phaseExc_ok bagTagsStep top
    (phaseOpt (bagDateStep now) top (phaseOpt bagMakeStep top h)) hnd hlen2 hsucc3
  have hlen3' : ∀ e ∈ top, e.2 < h3.length := by
    intro e he
    rw [hlen3]
    exact hlen2 e he
  have hval3 : ∀ e ∈ top, ∃ c1 c2 c3 c4,
      bagMakeStep (h.getD e.2 []) = some c1 ∧ bagDateStep now c1 = some c2 ∧
      bagTagsStep c2 = .ok c3 ∧ bagGpsStep c3 = .ok c4 ∧ h3.getD e.2 [] = c3 := by
    intro e he
    obtain ⟨c1, c2, c3, c4, hc1, hc2, hc3, hc4⟩ := hchain e he
    obtain ⟨d1, hd1, hd1gd⟩ := hget1 e.1 e.2 (hmeta e he)
    obtain ⟨d2, hd2, hd2gd⟩ := hget2 e.1 e.2 (hmeta e he)
    obtain ⟨d3, hd3, hd3gd⟩ := hget3 e.1 e.2 (hmeta e he)
    rw [hd1gd, Option.some.inj (hd1.symm.trans hc1)] at hd2
    rw [hd2gd, Option.some.inj (hd2.symm.trans hc2)] at hd3
    rw [Except.ok.inj (hd3.symm.trans hc3)] at hd3gd
    exact ⟨c1, c2, c3, c4, hc1, hc2, hc3, hc4, hd3gd⟩
  have hsucc4 : ∀ e ∈ top, ∃ bb, bagGpsStep (h3.getD e.2 []) = .ok bb := by
    intro e he
    obtain ⟨c1, c2, c3, c4, _, _, _, hc4, hval⟩ := hval3 e he
    rw [hval, hc4]
    exact ⟨c4, rfl⟩
  obtain ⟨h4, hph4, _, _, hget4⟩ := phaseExc_ok bagGpsStep top h3 hnd hlen3' hsucc4
  have hcm : clean_metadata now top h = .ok (top, h4) := by
    unfold clean_metadata clean_gps_infos
    simp only [hph3, hph4]
  obtain ⟨c1, c2, c3, c4, hc1, hc2, hc3, hc4, hval⟩ := hval3 (f, a) hmem
  obtain ⟨d4, hd4, hd4gd⟩ := hget4 f a hmem
  rw [hval] at hd4
  rw [Except.ok.inj (hd4.symm.trans hc4)] at hd4gd
  have hc1' : bagMakeStep (h.getD a []) = some c1 := hc1
  have hfull : cleanBagFull now (h.getD a []) = some c4 := by
    simp only [cleanBagFull, hc1', Option.some_bind, hc2, hc3, excToOpt, hc4]
  have hmk : assocLookup "Make" c4 = some (.vstr (cleanMakeStr s)) := by
    rw [bagGpsStep_preserves c3 c4 "Make" (by decide) (by decide) (by decide) hc4,
      bagTagsStep_preserves c2 c3 "Make" (by decide) hc3,
      bagDateStep_preserves now c1 c2 "Make" (by decide) hc2,
      bagMakeStep_make (h.getD a []) c1 s hmake hc1]
  refine ⟨h4, c4, hcm, hfull, hd4gd, hmk, ?_⟩
  intro heq
  rw [hd4gd] at heq
  rw [← heq] at hmake
  exact hchg (MVal.vstr.inj (Option.some.inj (hmk.symm.trans hmake)))

/-- C8: the dynamic size aggregation on five images with minimum dimensions
100, 250, 300, 450, 900 and `nb_intervals = 3` produces the three
right-closed ranges `(0, 300]`, `(300, 600]`, `(600, 900]`; the per-range
counts are 3, 1, 1 (summing to 5), each of the five minimum dimensions is
assigned its one range index, and every value between 100 and 900 falls in
some range. -/
theorem size_dynamic_example_buckets :
    dynamicBins [100, 250, 300, 450, 900] 3 = [0, 300, 600, 900] ∧
    cutCounts [0, 300, 600, 900] [100, 250, 300, 450, 900] = [3, 1, 1] ∧
    (cutCounts [0, 300, 600, 900] [100, 250, 300, 450, 900]).sum = 5 ∧
    (cutIdx [0, 300, 600, 900] 100 = some 0 ∧ cutIdx [0, 300, 600, 900] 250 = some 0 ∧
     cutIdx [0, 300, 600, 900] 300 = some 0 ∧ cutIdx [0, 300, 600, 900] 450 = some 1 ∧
     cutIdx [0, 300, 600, 900] 900 = some 2) ∧
    (∀ x : ℚ, 100 ≤ x → x ≤ 900 → (cutIdx [0, 300, 600, 900] x).isSome = true) := by
  have hbins : dynamicBins [100, 250, 300, 450, 900] 3 = [0, 300, 600, 900] := by
    have hms : maxMinSize [100, 250, 300, 450, 900] = 900 := by
      norm_num [maxMinSize, List.foldl, max_def]
    have hnb : numBins 5 3 = 3 := by
      unfold numBins
      norm_num
      rfl
    unfold dynamicBins
    rw [show ([100, 250, 300, 450, 900] : List ℚ).length = 5 from rfl, hnb, hms,
      show List.range (3 + 1) = [0, 1, 2, 3] from rfl]
    norm_num [List.map]
  refine ⟨hbins, by decide, by decide, by decide, ?_⟩
  intro x h1 h2
  simp only [cutIdx, cutIdxGo]
  split_ifs with hA hB hC
  · rfl
  · rfl
  · rfl
  · exfalso
    have hx3 : (300 : ℚ) < x := by
      by_contra hle
      push_neg at hle
      exact hA ⟨by linarith, hle⟩
    have hx6 : (600 : ℚ) < x := by
      by_contra hle
      push_neg at hle
      exact hB ⟨hx3, hle⟩
    exact hC ⟨hx6, h2⟩

/-- C8 witness: the coverage clause of the bucketing theorem at the value
450, which lands in the middle range. -/
theorem size_dynamic_example_buckets_witness :
    (cutIdx [0, 300, 600, 900] 450).isSome = true :=
  size_dynamic_example_buckets.2.2.2.2 450 (by norm_num) (by norm_num)

theorem chooseFold_stay (sim : String → String → ℚ) (w : String) :
    ∀ (ks : List String) (acc : ℚ × String), (∀ c ∈ ks, sim w c ≤ acc.1) →
      chooseFold sim w acc ks = acc := by
  intro ks
  induction ks with
  | nil => intro acc _; rfl
  | cons c rest ih =>
      intro acc hle
      unfold chooseFold
      rw [List.foldl_cons, if_neg (not_lt.mpr (hle c (List.mem_cons_self c rest)))]
      exact ih acc fun c' hc' => hle c' (List.mem_cons_of_mem c hc')

/-- The running argmax fold picks a key of maximal similarity, and the
chosen key is the first key attaining it, provided some key beats the
accumulator. -/
theorem chooseFold_spec (sim : String → String → ℚ) (w : String) :
    ∀ (ks : List String) (acc : ℚ × String), (∃ c ∈ ks, acc.1 < sim w c) →
      (chooseFold sim w acc ks).2 ∈ ks ∧
      sim w (chooseFold sim w acc ks).2 = (chooseFold sim w acc ks).1 ∧
      acc.1 < (chooseFold sim w acc ks).1 ∧
      (∀ c ∈ ks, sim w c ≤ (chooseFold sim w acc ks).1) ∧
      ks.find? (fun c => decide ((chooseFold sim w acc ks).1 ≤ sim w c)) =
        some (chooseFold sim w acc ks).2 := by
  intro ks
  induction ks with
  | nil =>
      intro acc hex
      rcases hex with ⟨c, hc, _⟩
      exact absurd hc (List.not_mem_nil c)
  | cons c rest ih =>
      intro acc hex
      by_cases hc : acc.1 < sim w c
      · have hstep : chooseFold sim w acc (c :: rest) = chooseFold sim w (sim w c, c) rest := by
          unfold chooseFold
          rw [List.foldl_cons, if_pos hc]
        by_cases hrest : ∃ c' ∈ rest, sim w c < sim w c'
        · obtain ⟨h1, h2, h3, h4, h5⟩ := ih (sim w c, c) (by simpa using hrest)
          rw [hstep]
          refine ⟨List.mem_cons_of_mem c h1, h2, lt_trans hc h3, ?_, ?_⟩
          · intro c' hc'
            rcases List.mem_cons.mp hc' with heq | hmem
            · rw [heq]
              exact le_of_lt h3
            · exact h4 c' hmem
          · rw [List.find?_cons_of_neg _ (by simpa using not_le.mpr h3), h5]
        · push_neg at hrest
          have hstay : chooseFold sim w (sim w c, c) rest = (sim w c, c) :=
            chooseFold_stay sim w rest (sim w c, c) hrest
          rw [hstep, hstay]
          refine ⟨List.mem_cons_self c rest, rfl, hc, ?_, ?_⟩
          · intro c' hc'
            rcases List.mem_cons.mp hc' with heq | hmem
            · rw [heq]
            · exact hrest c' hmem
          · rw [List.find?_cons_of_pos _ (by simp)]
      · have hstep : chooseFold sim w acc (c :: rest) = chooseFold sim w acc rest := by
          unfold chooseFold
          rw [List.foldl_cons, if_neg hc]
        obtain ⟨c0, hc0mem, hc0⟩ := hex
        have hc0rest : c0 ∈ rest := by
          rcases List.mem_cons.mp hc0mem with heq | hmem
          · exfalso
            rw [heq] at hc0
            exact hc hc0
          · exact hmem
        obtain ⟨h1, h2, h3, h4, h5⟩ := ih acc ⟨c0, hc0rest, hc0⟩
        have hcle : sim w c < (chooseFold sim w acc rest).1 :=
          lt_of_le_of_lt (not_lt.mp hc) h3
        rw [hstep]
        refine ⟨List.mem_cons_of_mem c h1, h2, h3, ?_, ?_⟩
        · intro c' hc'
          rcases List.mem_cons.mp hc' with heq | hmem
          · rw [heq]
            exact le_of_lt hcle
          · exact h4 c' hmem
        · rw [List.find?_cons_of_neg _ (by simpa using not_le.mpr hcle), h5]

theorem assocLookup_isSome_of_mem_keys {α : Type} (d : List (String × α)) (k : String)
    (h : k ∈ d.map Prod.fst) : ∃ v, assocLookup k d = some v := by
  induction d with
  | nil => simp at h
  | cons p rest ih =>
      rw [List.map_cons, List.mem_cons] at h
      by_cases hk : p.1 = k
      · exact ⟨p.2, by simp [assocLookup, hk]⟩
      · rcases h with heq | hmem
        · exact absurd heq.symm hk
        · obtain ⟨v, hv⟩ := ih hmem
          exact ⟨v, by simp [assocLookup, hk, hv]⟩

/-- C9 counterexample: a tag whose similarity to every category is zero is
not placed in an `"other"` bucket: `0 > -1`, so the running maximum is
updated at the first category and the tag lands there.  The `"other"`
default is reachable only when no category beats `-1` — with an empty
category list — and then the update raises `KeyError` because no
`"other"` bucket exists in the result. -/
theorem zero_similarity_tag_goes_to_first_category :
    categorize_tags (fun _ _ => 0) ["house"] ["food", "animal"] =
      .ok [("food", [("house", 0)]), ("animal", [])] ∧
    categorize_tags (fun _ _ => 0) ["house"] [] = .error "KeyError: other" := by
  refine ⟨by decide, by decide⟩

/-- C9 (amended): whenever some category key has similarity above the
`-1` sentinel, categorizing one tag inserts it, with its maximal
similarity, into the bucket of the first category attaining the maximal
similarity — highest similarity wins, ties break in favor of the
first-seen category.  A tag with zero similarity everywhere therefore goes
to the first category, not to `"other"`
(`zero_similarity_tag_goes_to_first_category`). -/
theorem categorize_tags_assigns_argmax_first (sim : String → String → ℚ) (w : String)
    (cats : List String)
    (hex : ∃ c ∈ (initCats cats).map Prod.fst, -1 < sim w c) :
    ∃ sub,
      assocLookup (chooseCat sim w ((initCats cats).map Prod.fst)).2 (initCats cats) =
        some sub ∧
      categorize_tags sim [w] cats =
        .ok (assocUpdate (chooseCat sim w ((initCats cats).map Prod.fst)).2
          (assocUpdate w (chooseCat sim w ((initCats cats).map Prod.fst)).1 sub)
          (initCats cats)) ∧
      (chooseCat sim w ((initCats cats).map Prod.fst)).2 ∈ (initCats cats).map Prod.fst ∧
      sim w (chooseCat sim w ((initCats cats).map Prod.fst)).2 =
        (chooseCat sim w ((initCats cats).map Prod.fst)).1 ∧
      (∀ c ∈ (initCats cats).map Prod.fst,
        sim w c ≤ (chooseCat sim w ((initCats cats).map Prod.fst)).1) ∧
      ((initCats cats).map Prod.fst).find?
          (fun c => decide ((chooseCat sim w ((initCats cats).map Prod.fst)).1 ≤ sim w c)) =
        some (chooseCat sim w ((initCats cats).map Prod.fst)).2 := by
  obtain ⟨h1, h2, h3, h4, h5⟩ :=
    chooseFold_spec sim w ((initCats cats).map Prod.fst) ((-1 : ℚ), "other") hex
  obtain ⟨sub, hsub⟩ := assocLookup_isSome_of_mem_keys (initCats cats) _ h1
  have hsub' : assocLookup (chooseCat sim w ((initCats cats).map Prod.fst)).2
      (initCats cats) = some sub := hsub
  refine ⟨sub, hsub, ?_, h1, h2, h4, h5⟩
  simp only [categorize_tags, List.foldlM_cons, List.foldlM_nil, catStep, hsub']
  rfl

/-- C9 witness: the argmax theorem with the constant similarity 1 on the
category list `["food", "animal"]`: the tie is broken in favor of the
first-seen category `"food"`. -/
theorem categorize_tags_assigns_argmax_first_witness :
    ∃ sub,
      assocLookup (chooseCat (fun _ _ => (1 : ℚ)) "dog"
          ((initCats ["food", "animal"]).map Prod.fst)).2 (initCats ["food", "animal"]) =
        some sub ∧
      categorize_tags (fun _ _ => (1 : ℚ)) ["dog"] ["food", "animal"] =
        .ok (assocUpdate (chooseCat (fun _ _ => (1 : ℚ)) "dog"
            ((initCats ["food", "animal"]).map Prod.fst)).2
          (assocUpdate "dog" (chooseCat (fun _ _ => (1 : ℚ)) "dog"
            ((initCats ["food", "animal"]).map Prod.fst)).1 sub)
          (initCats ["food", "animal"])) ∧
      (chooseCat (fun _ _ => (1 : ℚ)) "dog" ((initCats ["food", "animal"]).map Prod.fst)).2 ∈
        (initCats ["food", "animal"]).map Prod.fst ∧
      (1 : ℚ) = (chooseCat (fun _ _ => (1 : ℚ)) "dog"
        ((initCats ["food", "animal"]).map Prod.fst)).1 ∧
      (∀ c ∈ (initCats ["food", "animal"]).map Prod.fst,
        (1 : ℚ) ≤ (chooseCat (fun _ _ => (1 : ℚ)) "dog"
          ((initCats ["food", "animal"]).map Prod.fst)).1) ∧
      ((initCats ["food", "animal"]).map Prod.fst).find?
          (fun _ => decide ((chooseCat (fun _ _ => (1 : ℚ)) "dog"
            ((initCats ["food", "animal"]).map Prod.fst)).1 ≤ (1 : ℚ))) =
        some (chooseCat (fun _ _ => (1 : ℚ)) "dog"
          ((initCats ["food", "animal"]).map Prod.fst)).2 :=
  categorize_tags_assigns_argmax_first (fun _ _ => (1 : ℚ)) "dog" ["food", "animal"]
    (by decide)

/-- C10 witness: the mutation theorem on a one-file mapping holding
`sampleRawBag`; the cleaned heap cell differs from the raw one the caller
still references, and its `Make` is the cleaned string. -/
theorem clean_metadata_mutates_shared_bags_witness :
    ∃ h' b,
      clean_metadata ⟨2026, 1, 1, 0, 0, 0⟩ [("img.jpg", 0)] [sampleRawBag] =
        .ok ([("img.jpg", 0)], h') ∧
      cleanBagFull ⟨2026, 1, 1, 0, 0, 0⟩ (([sampleRawBag] : Heap).getD 0 []) = some b ∧
      h'.getD 0 [] = b ∧
      assocLookup "Make" b = some (.vstr (cleanMakeStr "NIKON CORPORATION")) ∧
      h'.getD 0 [] ≠ ([sampleRawBag] : Heap).getD 0 [] :=
  clean_metadata_mutates_shared_bags ⟨2026, 1, 1, 0, 0, 0⟩ [("img.jpg", 0)] [sampleRawBag]
    (by decide) (by decide) (by decide) "img.jpg" 0 "NIKON CORPORATION"
    (by decide) (by decide) (by decide)

end VizApp
